import Mathlib

/-!
Shallow embedding of the house-rental agent's tool functions, translated
from the Python sources:

* `Query_database_tool.py` — `sanitize_agent_spec`, `build_stmt_from_spec`,
  `query_listing_table`;
* `Database_tools.py` — `_coerce_payload`, `upsert_listing`;
* `Zillow_tools.py` — `get_listing_info`, `process_brightdata_snapshot`,
  `retrieve_snapshot_from_brightData`.

Python's JSON-shaped runtime values are modelled by `PyVal`; machine-level
details the claims do not touch (floating-point numbers, Python `int()`
accepting a leading `+` or underscores) are noted where they are simplified.
The input space of each function is the space of mapping-shaped specs the
tool schema delivers: keys hold JSON values; shapes on which CPython would
raise a `TypeError` before any of the specified behaviour happens (for
example iterating a number) are outside the modelled space and are noted
at the definition concerned.
-/

namespace HouseRental

/-- A JSON-shaped Python runtime value: `None`, `bool`, `int`, `str`,
`list`/`tuple`, or `dict` with string keys. Floats are not modelled
(no claim touches them). -/
inductive PyVal where
  | none
  | bool (b : Bool)
  | int (n : Int)
  | str (s : String)
  | list (xs : List PyVal)
  | dict (kvs : List (String × PyVal))

/-- ASCII lower-casing of one character, as Python's `str.lower` acts on the
ASCII range (the full Unicode case map is not modelled; no claim leaves
ASCII). -/
def lowerChar (c : Char) : Char :=
  if 'A' ≤ c ∧ c ≤ 'Z' then Char.ofNat (c.toNat + 32) else c

/-- Python `s.lower()` (ASCII range). -/
def pyLower (s : String) : String := String.mk (s.data.map lowerChar)

/-- ASCII whitespace, as stripped by Python's `int(str)` and `str.rstrip`. -/
def isSpaceChar (c : Char) : Bool := c == ' ' || c == '\t' || c == '\n' || c == '\r'

/-- Leading and trailing whitespace removed. -/
def stripSpaces (cs : List Char) : List Char :=
  ((cs.dropWhile isSpaceChar).reverse.dropWhile isSpaceChar).reverse

/-- The value of a non-empty all-digit character list. -/
def digitsValAux : List Char → Nat → Option Nat
  | [], acc => some acc
  | c :: cs, acc =>
      if c.isDigit then digitsValAux cs (acc * 10 + (c.toNat - 48)) else Option.none

/-- `digitsVal cs = some n` when `cs` is a non-empty run of decimal digits. -/
def digitsVal : List Char → Option Nat
  | [] => Option.none
  | cs => digitsValAux cs 0

/-- Python `int(s)` on a string: surrounding whitespace stripped, an optional
sign, then decimal digits; anything else raises (`Option.none`). CPython
also accepts digit-group underscores, which are not modelled. -/
def pyParseInt (s : String) : Option Int :=
  match stripSpaces s.data with
  | '-' :: rest => (digitsVal rest).map fun n => -(n : Int)
  | '+' :: rest => (digitsVal rest).map fun n => (n : Int)
  | rest => (digitsVal rest).map fun n => (n : Int)

/-- Decimal digits of `n`, most significant first; `fuel` bounds the
recursion (any `fuel ≥ n` is enough, each division by ten at least
halves `n`). -/
def natToDigitsAux : Nat → Nat → List Char
  | 0, _ => []
  | fuel + 1, n =>
      if n == 0 then [] else natToDigitsAux fuel (n / 10) ++ [Char.ofNat (48 + n % 10)]

/-- Decimal rendering of a natural number, as Python's f-string renders an
`int`. -/
def natToString (n : Nat) : String :=
  if n == 0 then "0" else String.mk (natToDigitsAux (n + 1) n)

/-- Python truthiness of a `PyVal` (`bool(v)`). -/
def pyTruthy : PyVal → Bool
  | .none => false
  | .bool b => b
  | .int n => n != 0
  | .str s => s != ""
  | .list xs => !xs.isEmpty
  | .dict kvs => !kvs.isEmpty

/-- Python `int(v)`, as used inside a `try`/`except`: `some n` when the
conversion succeeds, `Option.none` when CPython would raise (`TypeError`
or `ValueError`), in which case the caller's `except` branch runs.
Strings are converted like Python's `int(str)` on plain decimal literals;
a leading `+` or digit-group underscores, which CPython also accepts,
are not modelled (no claim exercises them). -/
def pyInt : PyVal → Option Int
  | .int n => some n
  | .bool b => some (if b then 1 else 0)
  | .str s => pyParseInt s
  | _ => Option.none

/-- Python `v in S` for a set `S` of strings: true exactly when `v` is a
string belonging to the set. (For an unhashable `v` CPython would raise;
such values are outside the modelled space and yield `false`.) -/
def pyStrMem (v : PyVal) (allowed : List String) : Bool :=
  match v with
  | .str s => allowed.contains s
  | _ => false

/-- `isinstance(v, (list, tuple)) and v` — a non-empty ordered collection. -/
def isNonEmptyPyList : PyVal → Bool
  | .list xs => !xs.isEmpty
  | _ => false

/-- `isinstance(v, (list, tuple)) and len(v) == 2`. -/
def isPyListLenTwo : PyVal → Bool
  | .list xs => xs.length == 2
  | _ => false

/-- `isinstance(v, str)`. -/
def isPyStr : PyVal → Bool
  | .str _ => true
  | _ => false

/-- The string carried by a `PyVal` known to be a string (used only under a
`pyStrMem` guard, which forces the string case). -/
def pyStrGet : PyVal → String
  | .str s => s
  | _ => ""

/-- `v[i]` on a sanitized `between` value (a list of length two); other
shapes, on which CPython would raise, give `PyVal.none`. -/
def pyIndex (v : PyVal) (i : Nat) : PyVal :=
  match v with
  | .list xs => xs.getD i PyVal.none
  | _ => PyVal.none

/-- `ALLOWED_SELECT` from `Query_database_tool.py` (a Python set; membership
is all that is used, so a list models it). -/
def ALLOWED_SELECT : List String :=
  ["external_id","listing_data_source","address_unit","address_street","address_city","address_state","longitude_text","latitude_text","bedrooms","bathrooms",
   "listing_price","year_built","longitude","latitude","home_type","living_area","rent_zestimate","photo_count","hdp_url","has_approved_third_party_virtual_tour_url",
   "street_view_tile_image_url_medium_lat_long","general_description","price_history","nearby_homes","is_instant_offer_enabled","is_off_market","days_on_zillow",
   "virtual_tour_url","photos","utilities","interior_description","overview","is_listed_by_management_company","property_description","tags","unit_amenities",
   "availability_date","getting_around_scores","updated_at","created_at"]

/-- `ALLOWED_FIELDS` from `Query_database_tool.py`. -/
def ALLOWED_FIELDS : List String :=
  ["external_id", "listing_data_source", "address_city", "address_state", "bedrooms", "bathrooms", "listing_price",
   "year_built", "home_type", "living_area", "days_on_zillow", "availability_date", "updated_at", "created_at"]

/-- `ALLOWED_OPS` from `Query_database_tool.py`. -/
def ALLOWED_OPS : List String :=
  ["=", "!=", ">", ">=", "<", "<=", "ilike", "in", "between"]

/-- `MAX_LIMIT` from `Query_database_tool.py`. -/
def MAX_LIMIT : Int := 50

/-- `DEFAULT_SELECT` from `Query_database_tool.py` (same columns as
`ALLOWED_SELECT`, as a list). -/
def DEFAULT_SELECT : List String := ALLOWED_SELECT

/-- A raw `where`/`where_any` condition: the dict `{"field": …, "op": …,
"value": …}`. `cond.get(k)` returns `PyVal.none` for an absent key, so each
slot is a `PyVal` with `PyVal.none` standing for a missing entry. -/
structure RawCond where
  field : PyVal
  op : PyVal
  value : PyVal

/-- A raw `order_by` directive `{"field": …, "direction": …}`. The direction
is either absent/`None` (`Option.none`) or a string, matching the JSON
schema the tool publishes; a truthy non-string direction, on which CPython's
`.lower()` would raise, is outside the modelled space. -/
structure RawOrderBy where
  field : PyVal
  direction : Option String

/-- The raw agent spec: the mapping handed to `sanitize_agent_spec`.
`Option.none` for a key models the key being absent or `None` (both falsy
where the code tests truthiness, both the `.get` default where it does not).
`select` holds a list when present (a truthy non-list `select`, on which
CPython's list comprehension would raise, is outside the modelled space),
and likewise `where`, `where_any` and `order_by` hold lists of dicts. -/
structure RawSpec where
  select : Option (List PyVal)
  whereAnd : Option (List RawCond)
  whereAny : Option (List RawCond)
  order_by : Option (List RawOrderBy)
  limit : Option PyVal
  offset : Option PyVal

/-- A surviving condition as appended to `where_and`/`where_or`:
`{"field": field, "op": op, "value": val}` with `field` and `op` known to be
allow-listed strings and the value kept verbatim. -/
structure NormCond where
  field : String
  op : String
  value : PyVal

/-- A surviving `order_by` directive `{"field": f, "direction": d}`. -/
structure NormOrderBy where
  field : String
  direction : String

/-- The `normalized` dict built at the end of `sanitize_agent_spec`. -/
structure NormSpec where
  select : List String
  whereAnd : List NormCond
  whereAny : List NormCond
  order_by : List NormOrderBy
  limit : Int
  offset : Int

/-- One entry of the `errors` or `warnings` lists: each Python append is a
one-key dict; the constructor is the key, the argument the recorded value. -/
inductive Issue where
  | select_dropped (cols : List PyVal)
  | select_defaulted (cols : List String)
  | where_invalid_field (c : RawCond)
  | where_invalid_op (c : RawCond)
  | where_invalid_in_value (c : RawCond)
  | where_invalid_between_value (c : RawCond)
  | where_ilike_needs_string (c : RawCond)
  | where_any_invalid_field (c : RawCond)
  | where_any_invalid_op (c : RawCond)
  | where_any_invalid_in_value (c : RawCond)
  | where_any_invalid_between_value (c : RawCond)
  | where_any_ilike_needs_string (c : RawCond)
  | order_by_invalid_field (ob : RawOrderBy)
  | order_by_defaulted_direction (ob : RawOrderBy)
  | limit_defaulted (v : PyVal)
  | offset_defaulted (v : PyVal)
  | execution_error (msg : String)

/-- The verdict of the per-condition checks in the `where`/`where_any`
loops: which `continue`-with-error branch fires, or the appended survivor. -/
inductive CondVerdict where
  | invalidField
  | invalidOp
  | invalidIn
  | invalidBetween
  | invalidIlike
  | ok (n : NormCond)

/-- `v == "lit"` for a string literal, as in Python's `op == "in"`: true
exactly when `v` is that string. -/
def pyEqStr (v : PyVal) (s : String) : Bool :=
  match v with
  | .str t => t == s
  | _ => false

/-- The body of one iteration of the `where` (and identically `where_any`)
loop of `sanitize_agent_spec`: field allow-list check, operator check, then
the value-shape checks for `in`, `between` and `ilike`, in source order. -/
def classifyCond (c : RawCond) : CondVerdict :=
  if !pyStrMem c.field ALLOWED_FIELDS then .invalidField
  else if !pyStrMem c.op ALLOWED_OPS then .invalidOp
  else if pyEqStr c.op "in" && !isNonEmptyPyList c.value then .invalidIn
  else if pyEqStr c.op "between" && !isPyListLenTwo c.value then .invalidBetween
  else if pyEqStr c.op "ilike" && !isPyStr c.value then .invalidIlike
  else .ok { field := pyStrGet c.field, op := pyStrGet c.op, value := c.value }

/-- The error entry one dropped condition appends: the tag follows the
verdict, prefixed `where_any_…` in the `where_any` loop (`isAny = true`) and
`where_…` in the `where` loop. (The `.ok` case never reaches an error
append; its line here is arbitrary and unreachable from `sanitizeConds`.) -/
def condIssueOf (isAny : Bool) (v : CondVerdict) (c : RawCond) : Issue :=
  match v with
  | .invalidField => if isAny then .where_any_invalid_field c else .where_invalid_field c
  | .invalidOp => if isAny then .where_any_invalid_op c else .where_invalid_op c
  | .invalidIn => if isAny then .where_any_invalid_in_value c else .where_invalid_in_value c
  | .invalidBetween =>
      if isAny then .where_any_invalid_between_value c else .where_invalid_between_value c
  | .invalidIlike => if isAny then .where_any_ilike_needs_string c else .where_ilike_needs_string c
  | .ok _ => if isAny then .where_any_invalid_field c else .where_invalid_field c

/-- The `where` / `where_any` loop of `sanitize_agent_spec`: walks the raw
conditions in order, recording one error per dropped condition (tagged
`where_…` or `where_any_…` according to `isAny`) and appending survivors. -/
def sanitizeConds (isAny : Bool) : List RawCond → List Issue × List NormCond
  | [] => ([], [])
  | c :: rest =>
    let r := sanitizeConds isAny rest
    match classifyCond c with
    | .ok n => (r.1, n :: r.2)
    | v => (condIssueOf isAny v c :: r.1, r.2)

/-- Stated from the spec's words, for comparison with `classifyCond`: a
`where`/`where_any` condition survives iff its field is in the filter
allow-list, its operator is in the allowed operator set, and the operator's
value shape is right (`in` needs a non-empty ordered collection, `between`
exactly two bounds, `ilike` text). -/
def specCondAllowed (c : RawCond) : Bool :=
  pyStrMem c.field ALLOWED_FIELDS &&
  pyStrMem c.op ALLOWED_OPS &&
  (!pyEqStr c.op "in" || isNonEmptyPyList c.value) &&
  (!pyEqStr c.op "between" || isPyListLenTwo c.value) &&
  (!pyEqStr c.op "ilike" || isPyStr c.value)

/-- A surviving condition read back as the raw dict it came from: survivors
are kept verbatim exactly when this round-trip gives back the input. -/
def normCondToRaw (n : NormCond) : RawCond :=
  { field := .str n.field, op := .str n.op, value := n.value }

/-- The raw condition an error entry records, when it records one. -/
def issueCond : Issue → Option RawCond
  | .where_invalid_field c => some c
  | .where_invalid_op c => some c
  | .where_invalid_in_value c => some c
  | .where_invalid_between_value c => some c
  | .where_ilike_needs_string c => some c
  | .where_any_invalid_field c => some c
  | .where_any_invalid_op c => some c
  | .where_any_invalid_in_value c => some c
  | .where_any_invalid_between_value c => some c
  | .where_any_ilike_needs_string c => some c
  | _ => Option.none

/-- `(ob.get("direction") or "asc").lower()`: a missing/falsy direction
becomes `"asc"`, a non-empty string is lowercased. -/
def dirEffective : Option String → String
  | Option.none => "asc"
  | some s => if s == "" then "asc" else pyLower s

/-- The `order_by` loop of `sanitize_agent_spec`: returns
(errors, warnings, surviving directives), each in input order. -/
def sanitizeOrderBy : List RawOrderBy → List Issue × List Issue × List NormOrderBy
  | [] => ([], [], [])
  | ob :: rest =>
    let r := sanitizeOrderBy rest
    let d := dirEffective ob.direction
    if !pyStrMem ob.field ALLOWED_FIELDS then
      (Issue.order_by_invalid_field ob :: r.1, r.2.1, r.2.2)
    else if d != "asc" && d != "desc" then
      (r.1, Issue.order_by_defaulted_direction ob :: r.2.1,
       { field := pyStrGet ob.field, direction := "asc" } :: r.2.2)
    else
      (r.1, r.2.1, { field := pyStrGet ob.field, direction := d } :: r.2.2)

/-- The `limit` block of `sanitize_agent_spec`: `limit = spec.get("limit", 50)`,
then `limit = min(int(limit), MAX_LIMIT)`; a failing `int()` or a capped value
below 1 lands in the `except` branch, which records the value `limit` holds at
that moment (the original value if `int()` raised, the capped integer
otherwise) and defaults to 50. -/
def sanitizeLimit (v : Option PyVal) : List Issue × Int :=
  let limit := v.getD (.int 50)
  match pyInt limit with
  | some n =>
    let capped := min n MAX_LIMIT
    if capped < 1 then ([Issue.limit_defaulted (.int capped)], 50) else ([], capped)
  | Option.none => ([Issue.limit_defaulted limit], 50)

/-- The `offset` block of `sanitize_agent_spec`:
`offset = max(int(offset), 0)`, defaulting to 0 with a warning only when
`int()` raises. -/
def sanitizeOffset (v : Option PyVal) : List Issue × Int :=
  let offset := v.getD (.int 0)
  match pyInt offset with
  | some n => ([], max n 0)
  | Option.none => ([Issue.offset_defaulted offset], 0)

/-- `req_select = spec.get("select") or DEFAULT_SELECT`: a missing, `None`
or empty `select` is replaced by the default column list. -/
def req_select (s : RawSpec) : List PyVal :=
  match s.select with
  | Option.none => DEFAULT_SELECT.map PyVal.str
  | some xs => if xs.isEmpty then DEFAULT_SELECT.map PyVal.str else xs

/-- `good_select = [c for c in req_select if c in ALLOWED_SELECT]` — the
survivors are allow-listed strings, extracted as such. -/
def good_select_of (req : List PyVal) : List String :=
  req.filterMap fun v =>
    match v with
    | .str s => if ALLOWED_SELECT.contains s then some s else Option.none
    | _ => Option.none

/-- `bad_select = [c for c in req_select if c not in ALLOWED_SELECT]`. -/
def bad_select_of (req : List PyVal) : List PyVal :=
  req.filter fun v => !pyStrMem v ALLOWED_SELECT

/-- The two select warnings of `sanitize_agent_spec`: `select_dropped` when
some requested column was discarded, `select_defaulted` when nothing
survived. -/
def select_warnings (req : List PyVal) : List Issue :=
  (if !(bad_select_of req).isEmpty then [Issue.select_dropped (bad_select_of req)] else []) ++
  (if (good_select_of req).isEmpty then [Issue.select_defaulted DEFAULT_SELECT] else [])

/-- `good_select` after the empty-fallback: the default list when nothing
survived the allow-list filter. -/
def final_select (req : List PyVal) : List String :=
  if (good_select_of req).isEmpty then DEFAULT_SELECT else good_select_of req

/-- The result dict of `sanitize_agent_spec`. -/
structure SanitizeResult where
  ok : Bool
  errors : List Issue
  warnings : List Issue
  normalized_spec : NormSpec

/-- `sanitize_agent_spec` from `Query_database_tool.py`, line for line:
select filtering with its two warnings, the `where` and `where_any` loops,
the `order_by` loop, the `limit`/`offset` blocks, and the assembled result
with `ok = True`. Error entries appear in the list order the appends
produce: `where` errors, then `where_any` errors, then `order_by` field
errors; warnings: select, then `order_by` direction, then limit, then
offset. -/
def sanitize_agent_spec (spec : RawSpec) : SanitizeResult :=
  let req := req_select spec
  let selectWarns := select_warnings req
  let finalSelect := final_select req
  let wa := sanitizeConds false (spec.whereAnd.getD [])
  let wo := sanitizeConds true (spec.whereAny.getD [])
  let ob := sanitizeOrderBy (spec.order_by.getD [])
  let lim := sanitizeLimit spec.limit
  let off := sanitizeOffset spec.offset
  { ok := true
    errors := wa.1 ++ wo.1 ++ ob.1
    warnings := selectWarns ++ ob.2.1 ++ lim.1 ++ off.1
    normalized_spec :=
      { select := finalSelect
        whereAnd := wa.2
        whereAny := wo.2
        order_by := ob.2.2
        limit := lim.2
        offset := off.2 } }

/-- One predicate fragment appended to `and_clauses`/`or_clauses` in
`build_stmt_from_spec`: the SQLAlchemy expression built for one operator. -/
inductive Clause where
  | eq (c : String) (v : PyVal)
  | ne (c : String) (v : PyVal)
  | gt (c : String) (v : PyVal)
  | ge (c : String) (v : PyVal)
  | lt (c : String) (v : PyVal)
  | le (c : String) (v : PyVal)
  | ilike (c : String) (v : PyVal)
  | inList (c : String) (v : PyVal)
  | between (c : String) (lo hi : PyVal)

/-- A boolean combination of clauses, as produced by SQLAlchemy's
`and_` / `or_` combinators. -/
inductive Pred where
  | leaf (c : Clause)
  | conj (ps : List Pred)
  | disj (ps : List Pred)

/-- One `ORDER BY` term: `asc(col(f))` or `desc(col(f))`. -/
structure OrderTerm where
  field : String
  ascending : Bool

/-- The compiled statement: select columns, optional combined predicate,
order terms, limit and offset — the parts of the SQLAlchemy `Select` that
`build_stmt_from_spec` sets. -/
structure Stmt where
  select : List String
  wherePred : Option Pred
  orderBy : List OrderTerm
  limit : Int
  offset : Int

/-- The `if op == …` / `elif` chain of `build_stmt_from_spec`, building the
clause for one condition; an operator outside the nine handled ones appends
nothing (`Option.none`), exactly as the chain's missing `else` branch. -/
def condToClause (cond : NormCond) : Option Clause :=
  if cond.op == "=" then some (.eq cond.field cond.value)
  else if cond.op == "!=" then some (.ne cond.field cond.value)
  else if cond.op == ">" then some (.gt cond.field cond.value)
  else if cond.op == ">=" then some (.ge cond.field cond.value)
  else if cond.op == "<" then some (.lt cond.field cond.value)
  else if cond.op == "<=" then some (.le cond.field cond.value)
  else if cond.op == "ilike" then some (.ilike cond.field cond.value)
  else if cond.op == "in" then some (.inList cond.field cond.value)
  else if cond.op == "between" then
    some (.between cond.field (pyIndex cond.value 0) (pyIndex cond.value 1))
  else Option.none

/-- `build_stmt_from_spec` from `Query_database_tool.py`: builds the two
clause lists, then attaches `and_(*and_clauses, or_(*or_clauses))` when both
are non-empty, `and_(*and_clauses)` when only the first is, `or_(*or_clauses)`
when only the second is, and no predicate otherwise; then order terms
(ascending exactly when the direction is `"asc"`), limit and offset. -/
def build_stmt_from_spec (n : NormSpec) : Stmt :=
  let and_clauses := n.whereAnd.filterMap condToClause
  let or_clauses := n.whereAny.filterMap condToClause
  let wherePred : Option Pred :=
    if !and_clauses.isEmpty && !or_clauses.isEmpty then
      some (.conj (and_clauses.map .leaf ++ [.disj (or_clauses.map .leaf)]))
    else if !and_clauses.isEmpty then some (.conj (and_clauses.map .leaf))
    else if !or_clauses.isEmpty then some (.disj (or_clauses.map .leaf))
    else Option.none
  { select := n.select
    wherePred := wherePred
    orderBy := n.order_by.map fun ob => { field := ob.field, ascending := ob.direction == "asc" }
    limit := n.limit
    offset := n.offset }

/-- One result row: a column-keyed mapping. -/
def Row := List (String × PyVal)

/-- `meta` of the query result; `returned` is present only on success
(the failure dict carries just limit and offset). -/
structure QueryMeta where
  limit : Int
  offset : Int
  returned : Option Nat

/-- The result dict of `query_listing_table`. -/
structure QueryResult where
  ok : Bool
  errors : List Issue
  warnings : List Issue
  meta : QueryMeta
  data : List Row

/-- `query_listing_table` from `Query_database_tool.py`. The database — the
transaction with its `SET LOCAL` statements and the execution of the compiled
statement, everything inside the `try` — is the collaborator `db`, which
either yields rows or raises (`Except.error` with the exception's message
`str(e)`). On success the result carries the sanitizer's errors/warnings,
meta with the returned row count, and the data; on an exception the `except`
branch returns the structured failure object instead. The function is total:
no exception escapes. -/
def query_listing_table (db : Stmt → Except String (List Row)) (spec : RawSpec) : QueryResult :=
  let check := sanitize_agent_spec spec
  let normalized := check.normalized_spec
  match db (build_stmt_from_spec normalized) with
  | .ok rows =>
      { ok := true
        errors := check.errors
        warnings := check.warnings
        meta := { limit := normalized.limit, offset := normalized.offset, returned := some rows.length }
        data := rows }
  | .error e =>
      { ok := false
        errors := check.errors ++ [Issue.execution_error e]
        warnings := check.warnings
        meta := { limit := normalized.limit, offset := normalized.offset, returned := Option.none }
        data := [] }

/-- A Python dict with string keys, as a key-value list (keys unique). -/
def Record := List (String × PyVal)

/-- `record.get(k)` / `record.get(k, None)`: the stored value, `None` when
the key is absent. -/
def recordGet (r : Record) (k : String) : PyVal :=
  match r.lookup k with
  | some v => v
  | Option.none => PyVal.none

/-- `out[k] = v` on a dict already holding key `k` (every use in the source
assigns a key the dict was built with). -/
def recordSet (r : Record) (k : String) (v : PyVal) : Record :=
  r.map fun kv => if kv.1 == k then (k, v) else kv

mutual

/-- `json.dumps(v)` for the JSON-shaped values `_coerce_payload` serializes.
String escaping is not modelled (no claim inspects serialized text). -/
def pyJsonDumps : PyVal → String
  | .none => "null"
  | .bool b => if b then "true" else "false"
  | .int n => toString n
  | .str s => "\"" ++ s ++ "\""
  | .list xs => "[" ++ String.intercalate ", " (pyJsonDumpsList xs) ++ "]"
  | .dict kvs => "\x7b" ++ String.intercalate ", " (pyJsonDumpsKVs kvs) ++ "\x7d"

def pyJsonDumpsList : List PyVal → List String
  | [] => []
  | x :: xs => pyJsonDumps x :: pyJsonDumpsList xs

def pyJsonDumpsKVs : List (String × PyVal) → List String
  | [] => []
  | kv :: xs => ("\"" ++ kv.1 ++ "\": " ++ pyJsonDumps kv.2) :: pyJsonDumpsKVs xs

end

/-- Python `str(v)`. In `_coerce_payload` this runs only on values that are
neither `None` nor `dict`/`list`, so only the scalar branches are ever
reached there (the collection branches reuse the JSON shape; CPython's
`repr`-style quoting of those is not modelled). -/
def pyStr : PyVal → String
  | .none => "None"
  | .bool b => if b then "True" else "False"
  | .int n => toString n
  | .str s => s
  | v => pyJsonDumps v

/-- `JSON_COLUMNS` from `Database_tools.py`. -/
def JSON_COLUMNS : List String :=
  ["price_history", "nearby_homes", "interior_description", "overview",
   "property_description", "getting_around_scores"]

/-- `ALL_COLUMNS` from `Database_tools.py` (ends at `updated_at`; it has no
`created_at`). -/
def ALL_COLUMNS : List String :=
  ["external_id", "listing_data_source",
   "address_unit", "address_street", "address_city", "address_state",
   "longitude_text", "latitude_text",
   "bedrooms", "bathrooms", "listing_price", "year_built",
   "longitude", "latitude", "home_type", "living_area",
   "rent_zestimate", "photo_count", "hdp_url",
   "has_approved_third_party_virtual_tour_url",
   "street_view_tile_image_url_medium_lat_long",
   "general_description", "price_history", "nearby_homes",
   "is_instant_offer_enabled", "is_off_market", "days_on_zillow",
   "virtual_tour_url", "photos", "utilities", "interior_description",
   "overview", "is_listed_by_management_company",
   "property_description", "tags", "unit_amenities",
   "availability_date", "getting_around_scores",
   "updated_at"]

/-- `_coerce_payload` from `Database_tools.py`: every expected column gets a
payload entry; JSON columns are serialized (`None` kept, `dict`/`list`
dumped, anything else passed through `str`), other columns copied as-is. -/
def coerce_payload (record : Record) : List (String × PyVal) :=
  ALL_COLUMNS.map fun col =>
    let val := recordGet record col
    if JSON_COLUMNS.contains col then
      match val with
      | PyVal.none => (col, PyVal.none)
      | PyVal.dict kvs => (col, PyVal.str (pyJsonDumps (PyVal.dict kvs)))
      | PyVal.list xs => (col, PyVal.str (pyJsonDumps (PyVal.list xs)))
      | v => (col, PyVal.str (pyStr v))
    else (col, val)

/-- The `{"error": …, "message": …}` dict `upsert_listing` returns. -/
structure UpsertResult where
  error : Bool
  message : String

/-- `upsert_listing` from `Database_tools.py`. The store (the database the
`UPSERT_SQL` transaction mutates) is the collaborator: a state of arbitrary
type `σ` and a transition `execUpsert` applied to the coerced payload. A
record whose `external_id` or `listing_data_source` is falsy (absent, `None`,
empty string, …) short-circuits: the failure dict is returned and the store
is not touched. -/
def upsert_listing {σ : Type} (execUpsert : σ → List (String × PyVal) → σ)
    (store : σ) (record : Record) : UpsertResult × σ :=
  if !pyTruthy (recordGet record "external_id") ||
     !pyTruthy (recordGet record "listing_data_source") then
    ({ error := true
       message := "Missing 'external_id' and 'listing_data_source', failed to upsert" }, store)
  else
    ({ error := false, message := "Successfully upsert the listing" },
     execUpsert store (coerce_payload record))

/-- One HTTP response of the Bright Data snapshot endpoint: status code, the
parsed JSON body (read only on 200), and the raw text (read only on other
non-202 statuses). -/
structure HttpResp where
  status_code : Nat
  json : PyVal
  text : String

/-- Python's `ph[-n:]` (the last `n` entries; `-0` means the whole list). -/
def lastSlice (xs : List PyVal) (n : Nat) : List PyVal :=
  if n == 0 then xs else xs.drop (xs.length - n)

/-- `val[:max_desc_chars].rstrip() + "…"` from `get_listing_info`. -/
def clipDesc (s : String) (maxChars : Nat) : String :=
  String.mk (((s.data.take maxChars).reverse.dropWhile isSpaceChar).reverse) ++ "…"

/-- `get_listing_info` from `Zillow_tools.py`: project the listing onto
`selected_keys` (absent keys become `None`), truncate `photos` to the first
`max_photos`, keep the last `max_price_history` entries of `priceHistory`,
and clip `description`/`overview` strings longer than `max_desc_chars`,
right-stripped, with an ellipsis appended. -/
def get_listing_info (listing_item : Record) (selected_keys : List String)
    (max_photos : Nat) (max_price_history : Nat) (max_desc_chars : Nat) : Record :=
  let out : Record := selected_keys.map fun k => (k, recordGet listing_item k)
  let out := match recordGet out "photos" with
    | .list xs => recordSet out "photos" (.list (xs.take max_photos))
    | _ => out
  let out := match recordGet out "priceHistory" with
    | .list xs => recordSet out "priceHistory" (.list (lastSlice xs max_price_history))
    | _ => out
  let out := match recordGet out "description" with
    | .str s =>
        if s.data.length > max_desc_chars then
          recordSet out "description" (.str (clipDesc s max_desc_chars))
        else out
    | _ => out
  let out := match recordGet out "overview" with
    | .str s =>
        if s.data.length > max_desc_chars then
          recordSet out "overview" (.str (clipDesc s max_desc_chars))
        else out
    | _ => out
  out

/-- The dict `process_brightdata_snapshot` returns: either
`{"success": False, "error_payload": …}` or
`{"success": True, "count": …, "listings": …, "schema": …}`. -/
inductive ProcessResult where
  | failure (error_payload : PyVal)
  | ready (count : Nat) (listings : List Record) (schema : PyVal)

/-- `process_brightdata_snapshot` from `Zillow_tools.py`: an error dict is
wrapped as a failure; a list is filtered to its dict items, each projected by
`get_listing_info` with the default truncation bounds (5 photos, 5 history
entries, 800 characters); anything else is the unexpected-type failure. -/
def process_brightdata_snapshot (snapshot_output : PyVal) (selected_keys : List String)
    (key_description : PyVal) : ProcessResult :=
  match snapshot_output with
  | .dict kvs =>
      if pyTruthy (recordGet kvs "error") then .failure (.dict kvs)
      else .failure (.dict [("error", .str "Unexpected snapshot output type")])
  | .list items =>
      let listings := items.filterMap fun it =>
        match it with
        | .dict kvs => some (get_listing_info kvs selected_keys 5 5 800)
        | _ => Option.none
      .ready listings.length listings key_description
  | _ => .failure (.dict [("error", .str "Unexpected snapshot output type")])

/-- What `retrieve_snapshot_from_brightData` returns: the processed result
(HTTP 200), or an `{"error": True, "status_code": …, "message": …}` dict
(immediate HTTP error, or the 408 timeout after the attempts run out). -/
inductive PollResult where
  | processed (r : ProcessResult)
  | errorObj (status_code : Nat) (message : String)

/-- The `for attempt in range(max_attempts)` loop of
`retrieve_snapshot_from_brightData`: `http` is the collaborator giving the
response of each attempt; 200 processes and returns, 202 sleeps `interval`
seconds and retries, anything else returns the error dict at once; falling
off the loop returns the 408 timeout object whose message counts
`interval * max_attempts` elapsed seconds. -/
def retrieveLoop (http : Nat → HttpResp) (selected_keys : List String)
    (key_description : PyVal) (snapshot_id : String) (interval : Nat)
    (max_attempts : Nat) : Nat → Nat → PollResult
  | _, 0 =>
      .errorObj 408
        ("Snapshot " ++ snapshot_id ++ " not ready after " ++
         natToString (interval * max_attempts) ++ " seconds")
  | attempt, remaining + 1 =>
      let resp := http attempt
      if resp.status_code == 200 then
        .processed (process_brightdata_snapshot resp.json selected_keys key_description)
      else if resp.status_code == 202 then
        retrieveLoop http selected_keys key_description snapshot_id interval max_attempts
          (attempt + 1) remaining
      else
        .errorObj resp.status_code resp.text

/-- `retrieve_snapshot_from_brightData` from `Zillow_tools.py`: run the
polling loop over `range(max_attempts)`, so from attempt 0 with
`max_attempts` attempts remaining. -/
def retrieve_snapshot_from_brightData (http : Nat → HttpResp) (selected_keys : List String)
    (key_description : PyVal) (snapshot_id : String) (interval : Nat)
    (max_attempts : Nat) : PollResult :=
  retrieveLoop http selected_keys key_description snapshot_id interval max_attempts 0 max_attempts

/-! Equation lemmas splitting `sanitize_agent_spec`'s result into its
per-section pieces, used throughout the proofs below. -/

theorem sanitize_warnings_eq (s : RawSpec) :
    (sanitize_agent_spec s).warnings =
      select_warnings (req_select s) ++ (sanitizeOrderBy (s.order_by.getD [])).2.1 ++
      (sanitizeLimit s.limit).1 ++ (sanitizeOffset s.offset).1 := rfl

theorem sanitize_errors_eq (s : RawSpec) :
    (sanitize_agent_spec s).errors =
      (sanitizeConds false (s.whereAnd.getD [])).1 ++
      (sanitizeConds true (s.whereAny.getD [])).1 ++
      (sanitizeOrderBy (s.order_by.getD [])).1 := rfl

theorem sanitize_normalized_eq (s : RawSpec) :
    (sanitize_agent_spec s).normalized_spec =
      { select := final_select (req_select s)
        whereAnd := (sanitizeConds false (s.whereAnd.getD [])).2
        whereAny := (sanitizeConds true (s.whereAny.getD [])).2
        order_by := (sanitizeOrderBy (s.order_by.getD [])).2.2
        limit := (sanitizeLimit s.limit).2
        offset := (sanitizeOffset s.offset).2 } := rfl

theorem sanitizeLimit_bounds (v : Option PyVal) :
    1 ≤ (sanitizeLimit v).2 ∧ (sanitizeLimit v).2 ≤ 50 := by
  simp only [sanitizeLimit]
  generalize pyInt (v.getD (.int 50)) = p
  rcases p with _ | n
  · simp
  · simp only [MAX_LIMIT]
    by_cases hc : min n (50 : Int) < 1 <;>
      simp only [hc, if_true, if_false, reduceIte] <;> constructor <;> omega

theorem sanitizeOffset_nonneg (v : Option PyVal) : 0 ≤ (sanitizeOffset v).2 := by
  simp only [sanitizeOffset]
  generalize pyInt (v.getD (.int 0)) = p
  rcases p with _ | n
  · simp
  · simp only
    omega

/-- C6: for every input spec the sanitizer returns a result whose `ok` field
is true — it never fails outright; problems surface only through the
`errors` and `warnings` lists (the function is total on the modelled input
space, and `ok` is the literal `True` of the source). -/
theorem sanitize_ok_always_true (s : RawSpec) : (sanitize_agent_spec s).ok = true := rfl

/-- C9: for every input spec the normalized pagination values are integers
with `1 ≤ limit ≤ 50` and `0 ≤ offset`: no input produces a limit of 0, a
limit above 50, or a negative offset. (Both values have type `Int` in the
model, matching the `int()` conversion the code applies.) -/
theorem normalized_pagination_bounds (s : RawSpec) :
    1 ≤ (sanitize_agent_spec s).normalized_spec.limit ∧
    (sanitize_agent_spec s).normalized_spec.limit ≤ 50 ∧
    0 ≤ (sanitize_agent_spec s).normalized_spec.offset := by
  have hl := sanitizeLimit_bounds s.limit
  have ho := sanitizeOffset_nonneg s.offset
  rw [sanitize_normalized_eq]
  exact ⟨hl.1, hl.2, ho⟩

/-- C2: when executing the compiled statement raises (the database
collaborator returns `Except.error e`), `query_listing_table` returns the
structured failure object — `ok = False`, the sanitizer's errors followed by
the execution error message, the sanitizer's warnings, meta with the
normalized limit/offset, empty data. No raw exception escapes: the function
is total, returning a `QueryResult` on every input and every collaborator
behaviour. -/
theorem query_wraps_execution_error (db : Stmt → Except String (List Row)) (s : RawSpec)
    (e : String)
    (h : db (build_stmt_from_spec (sanitize_agent_spec s).normalized_spec) = .error e) :
    query_listing_table db s =
      { ok := false
        errors := (sanitize_agent_spec s).errors ++ [Issue.execution_error e]
        warnings := (sanitize_agent_spec s).warnings
        meta := { limit := (sanitize_agent_spec s).normalized_spec.limit
                  offset := (sanitize_agent_spec s).normalized_spec.offset
                  returned := Option.none }
        data := [] } := by
  simp only [query_listing_table]
  rw [h]

/-- A spec with every key absent, used as the concrete input of several
witnesses and counterexamples. -/
def specEmpty : RawSpec :=
  ⟨Option.none, Option.none, Option.none, Option.none, Option.none, Option.none⟩

/-- Witness for C2: a collaborator that raises with message "boom" on the
empty spec yields exactly the structured failure object. -/
theorem query_wraps_execution_error_witness :
    query_listing_table (fun _ => .error "boom") specEmpty =
      { ok := false
        errors := [Issue.execution_error "boom"]
        warnings := []
        meta := { limit := 50, offset := 0, returned := Option.none }
        data := [] } :=
  (query_wraps_execution_error (fun _ => .error "boom") specEmpty "boom" rfl).trans rfl

/-- C7: a record whose `external_id` (or `listing_data_source`) key is
missing makes `upsert_listing` short-circuit: it returns the failure dict
and the store is unchanged — for every possible store state and every
possible store transition, so no store interaction can have happened. -/
theorem upsert_missing_id_short_circuits {σ : Type}
    (execUpsert : σ → List (String × PyVal) → σ) (store : σ) (record : Record)
    (h : List.lookup "external_id" record = Option.none ∨
         List.lookup "listing_data_source" record = Option.none) :
    upsert_listing execUpsert store record =
      ({ error := true
         message := "Missing 'external_id' and 'listing_data_source', failed to upsert" },
       store) := by
  unfold upsert_listing
  rcases h with h | h <;> simp [recordGet, h, pyTruthy]

/-- Witness for C7: a record carrying only `listing_data_source` (no
`external_id`) leaves a counter store untouched. -/
theorem upsert_missing_id_short_circuits_witness :
    upsert_listing (fun (s : Nat) _ => s + 1) 0 [("listing_data_source", PyVal.str "zillow")] =
      ({ error := true
         message := "Missing 'external_id' and 'listing_data_source', failed to upsert" },
       0) :=
  upsert_missing_id_short_circuits (fun (s : Nat) _ => s + 1) 0
    [("listing_data_source", PyVal.str "zillow")] (Or.inl rfl)

theorem retrieveLoop_all_busy (http : Nat → HttpResp) (keys : List String) (descp : PyVal)
    (sid : String) (interval max_attempts : Nat)
    (h : ∀ i, i < max_attempts → (http i).status_code = 202) :
    ∀ remaining attempt, attempt + remaining ≤ max_attempts →
      retrieveLoop http keys descp sid interval max_attempts attempt remaining =
        .errorObj 408 ("Snapshot " ++ sid ++ " not ready after " ++
          natToString (interval * max_attempts) ++ " seconds") := by
  intro remaining
  induction remaining with
  | zero => intro attempt _; rfl
  | succ r ih =>
      intro attempt hle
      have h202 : (http attempt).status_code = 202 := h attempt (by omega)
      simp only [retrieveLoop, h202]
      norm_num
      exact ih (attempt + 1) (by omega)

/-- C8: when the service answers "still processing" (HTTP 202) on every one
of the `max_attempts` attempts, the poll returns — it does not raise — the
timeout object: status code 408 and the message counting
`interval * max_attempts` elapsed seconds (one `interval`-second sleep per
attempt). -/
theorem poll_all_processing_times_out (http : Nat → HttpResp) (keys : List String)
    (descp : PyVal) (sid : String) (interval max_attempts : Nat)
    (h : ∀ i, i < max_attempts → (http i).status_code = 202) :
    retrieve_snapshot_from_brightData http keys descp sid interval max_attempts =
      .errorObj 408 ("Snapshot " ++ sid ++ " not ready after " ++
        natToString (interval * max_attempts) ++ " seconds") :=
  retrieveLoop_all_busy http keys descp sid interval max_attempts h max_attempts 0 (by omega)

/-- Witness for C8: three attempts, 60-second interval, always 202 — the
result is the 408 object reporting 180 seconds. -/
theorem poll_all_processing_times_out_witness :
    retrieve_snapshot_from_brightData (fun _ => ⟨202, PyVal.none, ""⟩) [] PyVal.none
      "abc" 60 3 =
      .errorObj 408 "Snapshot abc not ready after 180 seconds" :=
  (poll_all_processing_times_out (fun _ => ⟨202, PyVal.none, ""⟩) [] PyVal.none
    "abc" 60 3 (fun _ _ => rfl)).trans rfl

/-! Case equations for the pagination blocks, and which warning tags each
section of the sanitizer can emit. -/

theorem sanitizeLimit_missing : sanitizeLimit Option.none = ([], 50) := rfl

theorem sanitizeLimit_some_num (v : PyVal) (n : Int) (h : pyInt v = some n) :
    sanitizeLimit (some v) =
      if min n 50 < 1 then ([Issue.limit_defaulted (.int (min n 50))], 50)
      else ([], min n 50) := by
  simp only [sanitizeLimit, Option.getD_some, h, MAX_LIMIT]

theorem sanitizeLimit_some_nan (v : PyVal) (h : pyInt v = Option.none) :
    sanitizeLimit (some v) = ([Issue.limit_defaulted v], 50) := by
  simp only [sanitizeLimit, Option.getD_some, h]

theorem sanitizeOffset_missing : sanitizeOffset Option.none = ([], 0) := rfl

theorem sanitizeOffset_some_num (v : PyVal) (n : Int) (h : pyInt v = some n) :
    sanitizeOffset (some v) = ([], max n 0) := by
  simp only [sanitizeOffset, Option.getD_some, h]

theorem sanitizeOffset_some_nan (v : PyVal) (h : pyInt v = Option.none) :
    sanitizeOffset (some v) = ([Issue.offset_defaulted v], 0) := by
  simp only [sanitizeOffset, Option.getD_some, h]

theorem select_warnings_shape (req : List PyVal) :
    ∀ i ∈ select_warnings req,
      i = Issue.select_dropped (bad_select_of req) ∨
      i = Issue.select_defaulted DEFAULT_SELECT := by
  intro i hi
  simp only [select_warnings, List.mem_append] at hi
  rcases hi with h | h <;> split at h <;> simp at h <;> simp [h]

theorem sanitizeLimit_warn_shape (v : Option PyVal) :
    ∀ i ∈ (sanitizeLimit v).1, ∃ w, i = Issue.limit_defaulted w := by
  intro i hi
  simp only [sanitizeLimit] at hi
  generalize pyInt (v.getD (.int 50)) = p at hi
  rcases p with _ | n
  · simp at hi; exact ⟨_, hi⟩
  · simp only at hi
    split at hi <;> simp at hi
    exact ⟨_, hi⟩

theorem sanitizeOffset_warn_shape (v : Option PyVal) :
    ∀ i ∈ (sanitizeOffset v).1, ∃ w, i = Issue.offset_defaulted w := by
  intro i hi
  simp only [sanitizeOffset] at hi
  generalize pyInt (v.getD (.int 0)) = p at hi
  rcases p with _ | n
  · simp at hi; exact ⟨_, hi⟩
  · simp at hi

theorem sanitizeOrderBy_warn_shape (l : List RawOrderBy) :
    ∀ i ∈ (sanitizeOrderBy l).2.1, ∃ ob, i = Issue.order_by_defaulted_direction ob := by
  induction l with
  | nil => intro i hi; simp [sanitizeOrderBy] at hi
  | cons ob rest ih =>
      intro i hi
      simp only [sanitizeOrderBy] at hi
      split at hi
      · exact ih i hi
      · split at hi
        · simp only [List.mem_cons] at hi
          rcases hi with rfl | hi
          · exact ⟨ob, rfl⟩
          · exact ih i hi
        · exact ih i hi

/-- A `limit_defaulted` warning can only come from the limit block. -/
theorem limit_warn_only (s : RawSpec) (w : PyVal) :
    Issue.limit_defaulted w ∈ (sanitize_agent_spec s).warnings ↔
      Issue.limit_defaulted w ∈ (sanitizeLimit s.limit).1 := by
  rw [sanitize_warnings_eq]
  simp only [List.mem_append]
  constructor
  · rintro (((h | h) | h) | h)
    · rcases select_warnings_shape _ _ h with h' | h' <;> simp at h'
    · rcases sanitizeOrderBy_warn_shape _ _ h with ⟨ob, h'⟩; simp at h'
    · exact h
    · rcases sanitizeOffset_warn_shape _ _ h with ⟨u, h'⟩; simp at h'
  · intro h; exact Or.inl (Or.inr h)

/-- An `offset_defaulted` warning can only come from the offset block. -/
theorem offset_warn_only (s : RawSpec) (w : PyVal) :
    Issue.offset_defaulted w ∈ (sanitize_agent_spec s).warnings ↔
      Issue.offset_defaulted w ∈ (sanitizeOffset s.offset).1 := by
  rw [sanitize_warnings_eq]
  simp only [List.mem_append]
  constructor
  · rintro (((h | h) | h) | h)
    · rcases select_warnings_shape _ _ h with h' | h' <;> simp at h'
    · rcases sanitizeOrderBy_warn_shape _ _ h with ⟨ob, h'⟩; simp at h'
    · rcases sanitizeLimit_warn_shape _ _ h with ⟨u, h'⟩; simp at h'
    · exact h
  · intro h; exact Or.inr h

/-- An `order_by_defaulted_direction` warning can only come from the
`order_by` loop. -/
theorem order_warn_only (s : RawSpec) (ob : RawOrderBy) :
    Issue.order_by_defaulted_direction ob ∈ (sanitize_agent_spec s).warnings ↔
      Issue.order_by_defaulted_direction ob ∈ (sanitizeOrderBy (s.order_by.getD [])).2.1 := by
  rw [sanitize_warnings_eq]
  simp only [List.mem_append]
  constructor
  · rintro (((h | h) | h) | h)
    · rcases select_warnings_shape _ _ h with h' | h' <;> simp at h'
    · exact h
    · rcases sanitizeLimit_warn_shape _ _ h with ⟨u, h'⟩; simp at h'
    · rcases sanitizeOffset_warn_shape _ _ h with ⟨u, h'⟩; simp at h'
  · intro h; exact Or.inl (Or.inl (Or.inr h))

/-- C4 counterexample: on the spec with `limit` and `offset` both absent, the
normalized values default to 50 and 0 but the warnings list is empty — the
claim's "with a warning recorded (also when `limit` is missing)" and
"warning when invalid or missing" fail at this input. -/
theorem missing_limit_offset_counterexample :
    (sanitize_agent_spec specEmpty).normalized_spec.limit = 50 ∧
    (sanitize_agent_spec specEmpty).normalized_spec.offset = 0 ∧
    (sanitize_agent_spec specEmpty).warnings = [] :=
  ⟨rfl, rfl, rfl⟩

/-- C4 (amended): limit above the cap is capped to 50 silently; a present
limit whose integer value is below 1 after capping, or that does not parse
as an integer, is defaulted to 50 with a `limit_defaulted` warning; a
missing limit defaults to 50 with no warning. A present offset parsing to
`n` is normalized to `max n 0` (negative values clipped to 0) with no
warning; a present offset that does not parse is defaulted to 0 with an
`offset_defaulted` warning; a missing offset defaults to 0 with no
warning. -/
theorem limit_offset_normalization_amended (s : RawSpec) :
    (s.limit = Option.none →
       (sanitize_agent_spec s).normalized_spec.limit = 50 ∧
       ∀ w, Issue.limit_defaulted w ∉ (sanitize_agent_spec s).warnings) ∧
    (∀ v n, s.limit = some v → pyInt v = some n → 1 ≤ min n 50 →
       (sanitize_agent_spec s).normalized_spec.limit = min n 50 ∧
       ∀ w, Issue.limit_defaulted w ∉ (sanitize_agent_spec s).warnings) ∧
    (∀ v n, s.limit = some v → pyInt v = some n → min n 50 < 1 →
       (sanitize_agent_spec s).normalized_spec.limit = 50 ∧
       Issue.limit_defaulted (.int (min n 50)) ∈ (sanitize_agent_spec s).warnings) ∧
    (∀ v, s.limit = some v → pyInt v = Option.none →
       (sanitize_agent_spec s).normalized_spec.limit = 50 ∧
       Issue.limit_defaulted v ∈ (sanitize_agent_spec s).warnings) ∧
    (s.offset = Option.none →
       (sanitize_agent_spec s).normalized_spec.offset = 0 ∧
       ∀ w, Issue.offset_defaulted w ∉ (sanitize_agent_spec s).warnings) ∧
    (∀ v n, s.offset = some v → pyInt v = some n →
       (sanitize_agent_spec s).normalized_spec.offset = max n 0 ∧
       ∀ w, Issue.offset_defaulted w ∉ (sanitize_agent_spec s).warnings) ∧
    (∀ v, s.offset = some v → pyInt v = Option.none →
       (sanitize_agent_spec s).normalized_spec.offset = 0 ∧
       Issue.offset_defaulted v ∈ (sanitize_agent_spec s).warnings) := by
  rw [sanitize_normalized_eq]
  refine ⟨?_, ?_, ?_, ?_, ?_, ?_, ?_⟩
  · intro h
    rw [h, sanitizeLimit_missing]
    exact ⟨rfl, fun w hw => by rw [limit_warn_only, h, sanitizeLimit_missing] at hw; cases hw⟩
  · intro v n hv hn hge
    rw [hv, sanitizeLimit_some_num v n hn, if_neg (by omega)]
    refine ⟨rfl, fun w hw => ?_⟩
    rw [limit_warn_only, hv, sanitizeLimit_some_num v n hn, if_neg (by omega)] at hw
    cases hw
  · intro v n hv hn hlt
    rw [hv, sanitizeLimit_some_num v n hn, if_pos hlt]
    refine ⟨rfl, ?_⟩
    rw [limit_warn_only, hv, sanitizeLimit_some_num v n hn, if_pos hlt]
    exact List.mem_singleton.mpr rfl
  · intro v hv hn
    rw [hv, sanitizeLimit_some_nan v hn]
    refine ⟨rfl, ?_⟩
    rw [limit_warn_only, hv, sanitizeLimit_some_nan v hn]
    exact List.mem_singleton.mpr rfl
  · intro h
    rw [h, sanitizeOffset_missing]
    exact ⟨rfl, fun w hw => by rw [offset_warn_only, h, sanitizeOffset_missing] at hw; cases hw⟩
  · intro v n hv hn
    rw [hv, sanitizeOffset_some_num v n hn]
    refine ⟨rfl, fun w hw => ?_⟩
    rw [offset_warn_only, hv, sanitizeOffset_some_num v n hn] at hw
    cases hw
  · intro v hv hn
    rw [hv, sanitizeOffset_some_nan v hn]
    refine ⟨rfl, ?_⟩
    rw [offset_warn_only, hv, sanitizeOffset_some_nan v hn]
    exact List.mem_singleton.mpr rfl

/-- A spec asking for limit 1000 and offset −5, used by the C4 witness. -/
def specBigLimit : RawSpec :=
  ⟨Option.none, Option.none, Option.none, Option.none, some (.int 1000), some (.int (-5))⟩

/-- Witness for C4 (amended): limit 1000 is capped to 50 with no warning,
offset −5 is clipped to 0 with no warning. -/
theorem limit_offset_normalization_amended_witness :
    ((sanitize_agent_spec specBigLimit).normalized_spec.limit = min 1000 50 ∧
     ∀ w, Issue.limit_defaulted w ∉ (sanitize_agent_spec specBigLimit).warnings) ∧
    ((sanitize_agent_spec specBigLimit).normalized_spec.offset = max (-5) 0 ∧
     ∀ w, Issue.offset_defaulted w ∉ (sanitize_agent_spec specBigLimit).warnings) :=
  ⟨(limit_offset_normalization_amended specBigLimit).2.1 (.int 1000) 1000 rfl rfl (by omega),
   (limit_offset_normalization_amended specBigLimit).2.2.2.2.2.1 (.int (-5)) (-5) rfl rfl⟩

/-! Behaviour of the `order_by` loop. -/

theorem sanitizeOrderBy_dirs (l : List RawOrderBy) :
    ∀ o ∈ (sanitizeOrderBy l).2.2, o.direction = "asc" ∨ o.direction = "desc" := by
  induction l with
  | nil => intro o ho; simp [sanitizeOrderBy] at ho
  | cons ob rest ih =>
      intro o ho
      simp only [sanitizeOrderBy] at ho
      split at ho
      · exact ih o ho
      · split at ho
        · simp only [List.mem_cons] at ho
          rcases ho with rfl | ho
          · exact Or.inl rfl
          · exact ih o ho
        · rename_i hd
          simp only [List.mem_cons] at ho
          rcases ho with rfl | ho
          · exact or_iff_not_imp_left.mpr (by simpa using hd)
          · exact ih o ho

theorem sanitizeOrderBy_warn_mem (l : List RawOrderBy) (ob : RawOrderBy) :
    Issue.order_by_defaulted_direction ob ∈ (sanitizeOrderBy l).2.1 ↔
      ob ∈ l ∧ pyStrMem ob.field ALLOWED_FIELDS = true ∧
        dirEffective ob.direction ≠ "asc" ∧ dirEffective ob.direction ≠ "desc" := by
  induction l with
  | nil => simp [sanitizeOrderBy]
  | cons ob' rest ih =>
      simp only [sanitizeOrderBy]
      split
      · rename_i hf
        rw [ih]
        constructor
        · rintro ⟨hmem, hp⟩
          exact ⟨List.mem_cons_of_mem _ hmem, hp⟩
        · rintro ⟨hmem, hstr, hd⟩
          rcases List.mem_cons.mp hmem with rfl | hmem'
          · rw [hstr] at hf; cases hf
          · exact ⟨hmem', hstr, hd⟩
      · split
        · rename_i hf hd
          simp only [List.mem_cons]
          constructor
          · rintro (heq | hin)
            · obtain rfl : ob = ob' := by
                injection heq
              refine ⟨Or.inl rfl, by simpa using hf, ?_⟩
              simpa using hd
            · obtain ⟨hmem, hp⟩ := ih.mp hin
              exact ⟨Or.inr hmem, hp⟩
          · rintro ⟨hmem, hstr, hd1, hd2⟩
            rcases hmem with rfl | hmem'
            · exact Or.inl rfl
            · exact Or.inr (ih.mpr ⟨hmem', hstr, hd1, hd2⟩)
        · rename_i hf hd
          rw [ih]
          constructor
          · rintro ⟨hmem, hp⟩
            exact ⟨List.mem_cons_of_mem _ hmem, hp⟩
          · rintro ⟨hmem, hstr, hd1, hd2⟩
            rcases List.mem_cons.mp hmem with rfl | hmem'
            · exact absurd (by simpa using hd) (by simp [hd1, hd2])
            · exact ⟨hmem', hstr, hd1, hd2⟩

theorem sanitizeOrderBy_out_mem (l : List RawOrderBy) :
    ∀ ob ∈ l, pyStrMem ob.field ALLOWED_FIELDS = true →
      ({ field := pyStrGet ob.field
         direction :=
           if dirEffective ob.direction = "asc" ∨ dirEffective ob.direction = "desc"
           then dirEffective ob.direction else "asc" } : NormOrderBy) ∈
        (sanitizeOrderBy l).2.2 := by
  induction l with
  | nil => intro ob h; cases h
  | cons ob' rest ih =>
      intro ob hmem hstr
      simp only [sanitizeOrderBy]
      rcases List.mem_cons.mp hmem with rfl | hmem'
      · rw [if_neg (by simp [hstr])]
        split
        · rename_i hd
          have hd' : dirEffective ob.direction ≠ "asc" ∧ dirEffective ob.direction ≠ "desc" := by
            simpa using hd
          rw [if_neg (by simp [hd'.1, hd'.2])]
          exact List.mem_cons_self _ _
        · rename_i hd
          rw [if_pos (or_iff_not_imp_left.mpr (by simpa using hd))]
          exact List.mem_cons_self _ _
      · have hr := ih ob hmem' hstr
        split
        · exact hr
        · split
          · exact List.mem_cons_of_mem _ hr
          · exact List.mem_cons_of_mem _ hr

/-- C10 counterexample: one `order_by` directive with an allow-listed field
and no `direction` key — the normalized direction defaults to `"asc"` but no
warning is recorded, contradicting the claim's "a missing … direction is
replaced by asc with a warning". -/
theorem order_by_missing_direction_counterexample :
    (sanitize_agent_spec
        ⟨Option.none, Option.none, Option.none,
         some [⟨.str "bedrooms", Option.none⟩], Option.none, Option.none⟩).normalized_spec.order_by
      = [⟨"bedrooms", "asc"⟩] ∧
    (sanitize_agent_spec
        ⟨Option.none, Option.none, Option.none,
         some [⟨.str "bedrooms", Option.none⟩], Option.none, Option.none⟩).warnings = [] :=
  ⟨rfl, rfl⟩

/-- C10 (amended): for every `order_by` directive with a field in the filter
allow-list, the direction is first replaced by `"asc"` if missing/falsy and
lowercased otherwise (so any case variant of "asc"/"desc", e.g. "DESC", is
accepted without warning, and a missing direction becomes "asc" silently,
without warning); a present direction whose lowercasing is neither "asc" nor
"desc" is replaced by "asc" with a warning; the normalized direction is
always exactly "asc" or "desc". -/
theorem order_by_direction_amended (s : RawSpec) :
    (∀ o ∈ (sanitize_agent_spec s).normalized_spec.order_by,
        o.direction = "asc" ∨ o.direction = "desc") ∧
    (∀ ob ∈ s.order_by.getD [], ∀ f, ob.field = PyVal.str f → f ∈ ALLOWED_FIELDS →
       ((dirEffective ob.direction = "asc" ∨ dirEffective ob.direction = "desc") →
          ({ field := f, direction := dirEffective ob.direction } : NormOrderBy) ∈
             (sanitize_agent_spec s).normalized_spec.order_by ∧
          Issue.order_by_defaulted_direction ob ∉ (sanitize_agent_spec s).warnings) ∧
       (dirEffective ob.direction ≠ "asc" → dirEffective ob.direction ≠ "desc" →
          ({ field := f, direction := "asc" } : NormOrderBy) ∈
             (sanitize_agent_spec s).normalized_spec.order_by ∧
          Issue.order_by_defaulted_direction ob ∈ (sanitize_agent_spec s).warnings)) := by
  rw [sanitize_normalized_eq]
  refine ⟨fun o ho => sanitizeOrderBy_dirs _ o ho, ?_⟩
  intro ob hmem f hf hfa
  have hstr : pyStrMem ob.field ALLOWED_FIELDS = true := by
    rw [hf]; simpa [pyStrMem] using hfa
  have hout := sanitizeOrderBy_out_mem _ ob hmem hstr
  constructor
  · intro hvalid
    constructor
    · rw [if_pos hvalid, hf] at hout
      simpa [pyStrGet] using hout
    · intro hw
      rw [order_warn_only, sanitizeOrderBy_warn_mem] at hw
      rcases hvalid with h | h
      · exact hw.2.2.1 h
      · exact hw.2.2.2 h
  · intro hna hnd
    constructor
    · rw [if_neg (by simp [hna, hnd]), hf] at hout
      simpa [pyStrGet] using hout
    · rw [order_warn_only, sanitizeOrderBy_warn_mem]
      exact ⟨hmem, hstr, hna, hnd⟩

/-- A spec ordering by `bedrooms DESC` (upper case), used by the C10
witness. -/
def specObDesc : RawSpec :=
  ⟨Option.none, Option.none, Option.none,
   some [⟨.str "bedrooms", some "DESC"⟩], Option.none, Option.none⟩

/-- Witness for C10 (amended): direction "DESC" is normalized to "desc" with
no warning recorded. -/
theorem order_by_direction_amended_witness :
    ({ field := "bedrooms", direction := "desc" } : NormOrderBy) ∈
      (sanitize_agent_spec specObDesc).normalized_spec.order_by ∧
    Issue.order_by_defaulted_direction ⟨.str "bedrooms", some "DESC"⟩ ∉
      (sanitize_agent_spec specObDesc).warnings := by
  have h := ((order_by_direction_amended specObDesc).2 ⟨.str "bedrooms", some "DESC"⟩
      (by simp [specObDesc]) "bedrooms" rfl (by decide)).1 (Or.inr rfl)
  exact h

/-! Behaviour of the select section. -/

theorem good_select_subset (req : List PyVal) :
    ∀ x ∈ good_select_of req, x ∈ ALLOWED_SELECT := by
  intro x hx
  simp only [good_select_of, List.mem_filterMap] at hx
  obtain ⟨v, _, hveq⟩ := hx
  cases v <;> try exact Option.noConfusion hveq
  case str s =>
    simp only at hveq
    split at hveq
    · rename_i hc
      cases hveq
      simpa using hc
    · cases hveq

theorem final_select_ne_nil (req : List PyVal) : final_select req ≠ [] := by
  unfold final_select
  split
  · decide
  · rename_i h
    simpa [List.isEmpty_iff] using h

theorem final_select_subset (req : List PyVal) :
    ∀ x ∈ final_select req, x ∈ ALLOWED_SELECT := by
  intro x hx
  unfold final_select at hx
  split at hx
  · simpa [DEFAULT_SELECT] using hx
  · exact good_select_subset req x hx

/-- C5: the normalized select list is never empty and holds only allow-listed
columns (any requested column outside the allow-list is dropped); when some
requested column is dropped a `select_dropped` warning listing the dropped
columns is recorded; when no requested column survives, the full default
column list is substituted with a `select_defaulted` warning. -/
theorem sanitize_select_nonempty (s : RawSpec) :
    (sanitize_agent_spec s).normalized_spec.select ≠ [] ∧
    (∀ x ∈ (sanitize_agent_spec s).normalized_spec.select, x ∈ ALLOWED_SELECT) ∧
    (bad_select_of (req_select s) ≠ [] →
       Issue.select_dropped (bad_select_of (req_select s)) ∈ (sanitize_agent_spec s).warnings) ∧
    (good_select_of (req_select s) = [] →
       (sanitize_agent_spec s).normalized_spec.select = DEFAULT_SELECT ∧
       Issue.select_defaulted DEFAULT_SELECT ∈ (sanitize_agent_spec s).warnings) := by
  rw [sanitize_normalized_eq, sanitize_warnings_eq]
  refine ⟨final_select_ne_nil _, final_select_subset _, ?_, ?_⟩
  · intro hbad
    refine List.mem_append.mpr (Or.inl (List.mem_append.mpr (Or.inl (List.mem_append.mpr
      (Or.inl ?_)))))
    unfold select_warnings
    refine List.mem_append.mpr (Or.inl ?_)
    rw [if_pos (by simpa [List.isEmpty_iff] using hbad)]
    exact List.mem_singleton.mpr rfl
  · intro hgood
    constructor
    · show final_select (req_select s) = DEFAULT_SELECT
      unfold final_select
      rw [if_pos (by simp [hgood])]
    · refine List.mem_append.mpr (Or.inl (List.mem_append.mpr (Or.inl (List.mem_append.mpr
        (Or.inl ?_)))))
      unfold select_warnings
      refine List.mem_append.mpr (Or.inr ?_)
      rw [if_pos (by simp [hgood])]
      exact List.mem_singleton.mpr rfl

/-- A spec asking only for a column outside the select allow-list, used by
the C5 witness. -/
def specBadSelect : RawSpec :=
  ⟨some [.str "nope"], Option.none, Option.none, Option.none, Option.none, Option.none⟩

/-- Witness for C5: requesting only the unknown column "nope" drops it with a
warning and substitutes the full default column list with a warning. -/
theorem sanitize_select_nonempty_witness :
    (sanitize_agent_spec specBadSelect).normalized_spec.select = DEFAULT_SELECT ∧
    Issue.select_defaulted DEFAULT_SELECT ∈ (sanitize_agent_spec specBadSelect).warnings ∧
    Issue.select_dropped [PyVal.str "nope"] ∈ (sanitize_agent_spec specBadSelect).warnings := by
  have h := sanitize_select_nonempty specBadSelect
  have hd := h.2.2.2 rfl
  have hb := h.2.2.1 (List.cons_ne_nil _ _)
  exact ⟨hd.1, hd.2, hb⟩

/-! The `where` / `where_any` loops against the spec-side predicate
`specCondAllowed`. -/

theorem pyStrMem_str (v : PyVal) (l : List String) (h : pyStrMem v l = true) :
    v = .str (pyStrGet v) := by
  cases v <;> try rfl
  all_goals simp [pyStrMem] at h

theorem bool_or_of_and_not_false (a b : Bool) (h : (a && !b) = false) : (!a || b) = true := by
  cases a <;> cases b <;> simp_all

theorem bool_and_not_of_or (a b : Bool) (h : (!a || b) = true) : (a && !b) = false := by
  cases a <;> cases b <;> simp_all

theorem classifyCond_ok_of_allowed (c : RawCond) (h : specCondAllowed c = true) :
    classifyCond c = .ok ⟨pyStrGet c.field, pyStrGet c.op, c.value⟩ := by
  unfold specCondAllowed at h
  simp only [Bool.and_eq_true] at h
  obtain ⟨⟨⟨⟨hf, ho⟩, hin⟩, hbet⟩, hil⟩ := h
  unfold classifyCond
  rw [hf, ho, bool_and_not_of_or _ _ hin, bool_and_not_of_or _ _ hbet,
      bool_and_not_of_or _ _ hil]
  rfl

theorem normCondToRaw_of_allowed (c : RawCond) (h : specCondAllowed c = true) :
    normCondToRaw ⟨pyStrGet c.field, pyStrGet c.op, c.value⟩ = c := by
  unfold specCondAllowed at h
  simp only [Bool.and_eq_true] at h
  obtain ⟨⟨⟨⟨hf, ho⟩, _⟩, _⟩, _⟩ := h
  have h1 := pyStrMem_str c.field ALLOWED_FIELDS hf
  have h2 := pyStrMem_str c.op ALLOWED_OPS ho
  obtain ⟨f, o, v⟩ := c
  simp only at h1 h2
  simp only [normCondToRaw]
  rw [← h1, ← h2]

theorem specCondAllowed_of_classify_ok (c : RawCond) (n : NormCond)
    (h : classifyCond c = .ok n) : specCondAllowed c = true := by
  unfold classifyCond at h
  split at h
  · cases h
  · split at h
    · cases h
    · split at h
      · cases h
      · split at h
        · cases h
        · split at h
          · cases h
          · rename_i h1 h2 h3 h4 h5
            have hf : pyStrMem c.field ALLOWED_FIELDS = true := by
              revert h1; cases pyStrMem c.field ALLOWED_FIELDS <;> simp
            have ho : pyStrMem c.op ALLOWED_OPS = true := by
              revert h2; cases pyStrMem c.op ALLOWED_OPS <;> simp
            have h3' : (pyEqStr c.op "in" && !isNonEmptyPyList c.value) = false := by
              revert h3; cases (pyEqStr c.op "in" && !isNonEmptyPyList c.value) <;> simp
            have h4' : (pyEqStr c.op "between" && !isPyListLenTwo c.value) = false := by
              revert h4; cases (pyEqStr c.op "between" && !isPyListLenTwo c.value) <;> simp
            have h5' : (pyEqStr c.op "ilike" && !isPyStr c.value) = false := by
              revert h5; cases (pyEqStr c.op "ilike" && !isPyStr c.value) <;> simp
            unfold specCondAllowed
            rw [hf, ho, bool_or_of_and_not_false _ _ h3', bool_or_of_and_not_false _ _ h4',
                bool_or_of_and_not_false _ _ h5']
            rfl

theorem issueCond_condIssueOf (isAny : Bool) (v : CondVerdict) (c : RawCond) :
    issueCond (condIssueOf isAny v c) = some c := by
  cases v <;> cases isAny <;> rfl

theorem sanitizeConds_cons (isAny : Bool) (c : RawCond) (rest : List RawCond) :
    sanitizeConds isAny (c :: rest) =
      match classifyCond c with
      | .ok n => ((sanitizeConds isAny rest).1, n :: (sanitizeConds isAny rest).2)
      | v => (condIssueOf isAny v c :: (sanitizeConds isAny rest).1,
              (sanitizeConds isAny rest).2) := rfl

theorem sanitizeConds_spec (isAny : Bool) (l : List RawCond) :
    ((sanitizeConds isAny l).2.map normCondToRaw = l.filter fun c => specCondAllowed c) ∧
    (∀ c ∈ l, specCondAllowed c = false →
       ∃ i ∈ (sanitizeConds isAny l).1, issueCond i = some c) := by
  induction l with
  | nil => exact ⟨rfl, fun c hc => absurd hc (List.not_mem_nil c)⟩
  | cons c rest ih =>
      by_cases hsc : specCondAllowed c = true
      · have hok := classifyCond_ok_of_allowed c hsc
        rw [sanitizeConds_cons, hok]
        constructor
        · simp only [List.map_cons, List.filter_cons, hsc, if_true]
          rw [normCondToRaw_of_allowed c hsc, ih.1]
        · intro c' hc' hf
          rcases List.mem_cons.mp hc' with rfl | hm
          · rw [hsc] at hf; cases hf
          · exact ih.2 c' hm hf
      · have hsf : specCondAllowed c = false := by
          cases hx : specCondAllowed c
          · rfl
          · exact absurd hx hsc
        have hne : ∀ n, classifyCond c ≠ .ok n := fun n hn =>
          hsc (specCondAllowed_of_classify_ok c n hn)
        rw [sanitizeConds_cons]
        cases hv : classifyCond c
        all_goals try exact absurd hv (hne _)
        all_goals refine ⟨?_, ?_⟩
        all_goals first
          | (simp only [List.filter_cons, hsf, Bool.false_eq_true, if_false]
             exact ih.1)
          | (intro c' hc' hf
             rcases List.mem_cons.mp hc' with rfl | hm
             · exact ⟨condIssueOf isAny _ c', List.mem_cons_self _ _,
                 issueCond_condIssueOf _ _ _⟩
             · obtain ⟨i, hi, he⟩ := ih.2 c' hm hf
               exact ⟨i, List.mem_cons_of_mem _ hi, he⟩)

/-- C1: each `where`/`where_any` condition with a field outside the filter
allow-list, an operator outside the allowed set, or a wrong value shape
(`in` needs a non-empty ordered collection, `between` exactly two bounds,
`ilike` text) is dropped with an error recording that condition; the
normalized `where`/`where_any` hold only conditions with allow-listed
fields and operators, and the survivors are exactly the admissible input
conditions, kept verbatim (field, operator, value) in input order — reading
each survivor back as a raw condition gives the filtered input list. -/
theorem sanitize_where_allowlist (s : RawSpec) :
    ((sanitize_agent_spec s).normalized_spec.whereAnd.map normCondToRaw =
       (s.whereAnd.getD []).filter fun c => specCondAllowed c) ∧
    ((sanitize_agent_spec s).normalized_spec.whereAny.map normCondToRaw =
       (s.whereAny.getD []).filter fun c => specCondAllowed c) ∧
    (∀ n ∈ (sanitize_agent_spec s).normalized_spec.whereAnd,
       n.field ∈ ALLOWED_FIELDS ∧ n.op ∈ ALLOWED_OPS) ∧
    (∀ n ∈ (sanitize_agent_spec s).normalized_spec.whereAny,
       n.field ∈ ALLOWED_FIELDS ∧ n.op ∈ ALLOWED_OPS) ∧
    (∀ c ∈ s.whereAnd.getD [], specCondAllowed c = false →
       ∃ i ∈ (sanitize_agent_spec s).errors, issueCond i = some c) ∧
    (∀ c ∈ s.whereAny.getD [], specCondAllowed c = false →
       ∃ i ∈ (sanitize_agent_spec s).errors, issueCond i = some c) := by
  have hA := sanitizeConds_spec false (s.whereAnd.getD [])
  have hO := sanitizeConds_spec true (s.whereAny.getD [])
  rw [sanitize_normalized_eq, sanitize_errors_eq]
  refine ⟨hA.1, hO.1, ?_, ?_, ?_, ?_⟩
  · intro n hn
    have hmem : normCondToRaw n ∈ (s.whereAnd.getD []).filter fun c => specCondAllowed c := by
      rw [← hA.1]; exact List.mem_map_of_mem _ hn
    have hall : specCondAllowed (normCondToRaw n) = true := (List.mem_filter.mp hmem).2
    unfold specCondAllowed at hall
    simp only [Bool.and_eq_true] at hall
    obtain ⟨⟨⟨⟨hf, ho⟩, _⟩, _⟩, _⟩ := hall
    exact ⟨by simpa [normCondToRaw, pyStrMem] using hf,
           by simpa [normCondToRaw, pyStrMem] using ho⟩
  · intro n hn
    have hmem : normCondToRaw n ∈ (s.whereAny.getD []).filter fun c => specCondAllowed c := by
      rw [← hO.1]; exact List.mem_map_of_mem _ hn
    have hall : specCondAllowed (normCondToRaw n) = true := (List.mem_filter.mp hmem).2
    unfold specCondAllowed at hall
    simp only [Bool.and_eq_true] at hall
    obtain ⟨⟨⟨⟨hf, ho⟩, _⟩, _⟩, _⟩ := hall
    exact ⟨by simpa [normCondToRaw, pyStrMem] using hf,
           by simpa [normCondToRaw, pyStrMem] using ho⟩
  · intro c hc hf
    obtain ⟨i, hi, he⟩ := hA.2 c hc hf
    exact ⟨i, List.mem_append.mpr (Or.inl (List.mem_append.mpr (Or.inl hi))), he⟩
  · intro c hc hf
    obtain ⟨i, hi, he⟩ := hO.2 c hc hf
    exact ⟨i, List.mem_append.mpr (Or.inl (List.mem_append.mpr (Or.inr hi))), he⟩

/-- A spec with one admissible `where` condition, one `where` condition on a
field outside the filter allow-list, and one `where_any` condition with an
empty `in` list, used by the C1 witness. -/
def specMixedWhere : RawSpec :=
  ⟨Option.none,
   some [⟨.str "bedrooms", .str ">=", .int 2⟩, ⟨.str "hdp_url", .str "=", .str "x"⟩],
   some [⟨.str "bedrooms", .str "in", .list []⟩],
   Option.none, Option.none, Option.none⟩

/-- Witness for C1: the admissible condition survives verbatim, the
disallowed-field condition and the empty-`in` condition are dropped with
errors recording them. -/
theorem sanitize_where_allowlist_witness :
    ((sanitize_agent_spec specMixedWhere).normalized_spec.whereAnd.map normCondToRaw =
       [⟨.str "bedrooms", .str ">=", .int 2⟩]) ∧
    (∃ i ∈ (sanitize_agent_spec specMixedWhere).errors,
       issueCond i = some ⟨.str "hdp_url", .str "=", .str "x"⟩) ∧
    (∃ i ∈ (sanitize_agent_spec specMixedWhere).errors,
       issueCond i = some ⟨.str "bedrooms", .str "in", .list []⟩) := by
  have h := sanitize_where_allowlist specMixedWhere
  refine ⟨h.1.trans (by rfl), ?_, ?_⟩
  · exact h.2.2.2.2.1 ⟨.str "hdp_url", .str "=", .str "x"⟩ (by simp [specMixedWhere]) rfl
  · exact h.2.2.2.2.2 ⟨.str "bedrooms", .str "in", .list []⟩ (by simp [specMixedWhere]) rfl

/-! Predicate combination in the statement compiler. -/

theorem condToClause_isSome_of_allowed (c : NormCond) (h : c.op ∈ ALLOWED_OPS) :
    (condToClause c).isSome := by
  simp only [ALLOWED_OPS, List.mem_cons, List.mem_singleton, List.not_mem_nil, or_false]
    at h
  rcases h with h | h | h | h | h | h | h | h | h <;> simp [condToClause, h]

theorem filterMap_clause_ne_nil (l : List NormCond) (h : ∀ c ∈ l, c.op ∈ ALLOWED_OPS)
    (hl : l ≠ []) : l.filterMap condToClause ≠ [] := by
  cases l with
  | nil => exact absurd rfl hl
  | cons c rest =>
      have hs := condToClause_isSome_of_allowed c (h c (List.mem_cons_self _ _))
      simp only [List.filterMap_cons]
      cases hc : condToClause c with
      | none => rw [hc] at hs; cases hs
      | some cl => simp

/-- C3: for a normalized spec (whose conditions carry allowed operators, as
the sanitizer guarantees), the compiler combines predicates exactly as
claimed: both groups non-empty gives `and_(*and_clauses, or_(*or_clauses))`
— the AND of all `where` clauses and the OR of all `where_any` clauses; one
group alone is used by itself; two empty groups attach no predicate. -/
theorem build_stmt_predicate_combination (n : NormSpec)
    (hA : ∀ c ∈ n.whereAnd, c.op ∈ ALLOWED_OPS)
    (hO : ∀ c ∈ n.whereAny, c.op ∈ ALLOWED_OPS) :
    (n.whereAnd ≠ [] → n.whereAny ≠ [] →
       (build_stmt_from_spec n).wherePred =
         some (.conj ((n.whereAnd.filterMap condToClause).map Pred.leaf ++
                      [.disj ((n.whereAny.filterMap condToClause).map Pred.leaf)]))) ∧
    (n.whereAnd ≠ [] → n.whereAny = [] →
       (build_stmt_from_spec n).wherePred =
         some (.conj ((n.whereAnd.filterMap condToClause).map Pred.leaf))) ∧
    (n.whereAnd = [] → n.whereAny ≠ [] →
       (build_stmt_from_spec n).wherePred =
         some (.disj ((n.whereAny.filterMap condToClause).map Pred.leaf))) ∧
    (n.whereAnd = [] → n.whereAny = [] →
       (build_stmt_from_spec n).wherePred = Option.none) := by
  refine ⟨?_, ?_, ?_, ?_⟩
  · intro hA' hO'
    have ha' : (n.whereAnd.filterMap condToClause).isEmpty = false := by
      cases hx : n.whereAnd.filterMap condToClause
      · exact absurd hx (filterMap_clause_ne_nil _ hA hA')
      · rfl
    have ho' : (n.whereAny.filterMap condToClause).isEmpty = false := by
      cases hx : n.whereAny.filterMap condToClause
      · exact absurd hx (filterMap_clause_ne_nil _ hO hO')
      · rfl
    simp [build_stmt_from_spec, ha', ho']
  · intro hA' hO'
    have ha' : (n.whereAnd.filterMap condToClause).isEmpty = false := by
      cases hx : n.whereAnd.filterMap condToClause
      · exact absurd hx (filterMap_clause_ne_nil _ hA hA')
      · rfl
    simp [build_stmt_from_spec, ha', hO']
  · intro hA' hO'
    have ho' : (n.whereAny.filterMap condToClause).isEmpty = false := by
      cases hx : n.whereAny.filterMap condToClause
      · exact absurd hx (filterMap_clause_ne_nil _ hO hO')
      · rfl
    simp [build_stmt_from_spec, hA', ho']
  · intro hA' hO'
    simp [build_stmt_from_spec, hA', hO']

/-- A normalized spec with one AND-condition and one OR-condition, used by
the C3 witness. -/
def normBoth : NormSpec :=
  ⟨["bedrooms"], [⟨"bedrooms", ">=", .int 2⟩],
   [⟨"address_city", "ilike", .str "%B%"⟩], [], 50, 0⟩

/-- Witness for C3: with one condition in each group, the compiled predicate
is AND(bedrooms ≥ 2, OR(address_city ilike %B%)). -/
theorem build_stmt_predicate_combination_witness :
    (build_stmt_from_spec normBoth).wherePred =
      some (.conj [.leaf (.ge "bedrooms" (.int 2)),
                   .disj [.leaf (.ilike "address_city" (.str "%B%"))]]) := by
  have h := (build_stmt_predicate_combination normBoth
      (by intro c hc
          rcases List.mem_cons.mp hc with rfl | hc
          · decide
          · exact absurd hc (List.not_mem_nil c))
      (by intro c hc
          rcases List.mem_cons.mp hc with rfl | hc
          · decide
          · exact absurd hc (List.not_mem_nil c))).1
    (by simp [normBoth]) (by simp [normBoth])
  exact h.trans rfl

end HouseRental
